import Mathlib

/-!
Verification of the ProductsRAG repository (`product_rag.py`).

The Python program is shallowly embedded: product records (parsed JSON
dicts) become association lists over a JSON-like value type `Val`; the
Chroma vector store and the OpenAI chat model are external collaborators
and are passed in as function parameters; the LangGraph machinery
(StateGraph, ToolNode, MemorySaver checkpointing) is not part of this
repository and its semantics are modelled from the specification.
Python floats (distance scores) are modelled as rationals.
-/

/-- JSON-like values, the codomain of `json.loads` as used by the program.
`num` carries a rational; float formatting is not modelled. -/
inductive Val : Type where
  | null : Val
  | str : String → Val
  | num : ℚ → Val
  | vlist : List Val → Val
  | vdict : List (String × Val) → Val

mutual

/-- Decidable equality for `Val` (Python `==` on parsed JSON values; dicts
are compared structurally, which matches Python for the fixed field orders
this program constructs). -/
def Val.decEq : (a b : Val) → Decidable (a = b)
  | .null, .null => .isTrue rfl
  | .null, .str _ => .isFalse (fun h => nomatch h)
  | .null, .num _ => .isFalse (fun h => nomatch h)
  | .null, .vlist _ => .isFalse (fun h => nomatch h)
  | .null, .vdict _ => .isFalse (fun h => nomatch h)
  | .str _, .null => .isFalse (fun h => nomatch h)
  | .str a, .str b =>
      if h : a = b then .isTrue (by rw [h]) else .isFalse (fun hh => h (by cases hh; rfl))
  | .str _, .num _ => .isFalse (fun h => nomatch h)
  | .str _, .vlist _ => .isFalse (fun h => nomatch h)
  | .str _, .vdict _ => .isFalse (fun h => nomatch h)
  | .num _, .null => .isFalse (fun h => nomatch h)
  | .num _, .str _ => .isFalse (fun h => nomatch h)
  | .num a, .num b =>
      if h : a = b then .isTrue (by rw [h]) else .isFalse (fun hh => h (by cases hh; rfl))
  | .num _, .vlist _ => .isFalse (fun h => nomatch h)
  | .num _, .vdict _ => .isFalse (fun h => nomatch h)
  | .vlist _, .null => .isFalse (fun h => nomatch h)
  | .vlist _, .str _ => .isFalse (fun h => nomatch h)
  | .vlist _, .num _ => .isFalse (fun h => nomatch h)
  | .vlist xs, .vlist ys =>
      match Val.decEqList xs ys with
      | .isTrue h => .isTrue (by rw [h])
      | .isFalse h => .isFalse (fun hh => h (by cases hh; rfl))
  | .vlist _, .vdict _ => .isFalse (fun h => nomatch h)
  | .vdict _, .null => .isFalse (fun h => nomatch h)
  | .vdict _, .str _ => .isFalse (fun h => nomatch h)
  | .vdict _, .num _ => .isFalse (fun h => nomatch h)
  | .vdict _, .vlist _ => .isFalse (fun h => nomatch h)
  | .vdict xs, .vdict ys =>
      match Val.decEqDict xs ys with
      | .isTrue h => .isTrue (by rw [h])
      | .isFalse h => .isFalse (fun hh => h (by cases hh; rfl))

/-- Decidable equality for lists of `Val`. -/
def Val.decEqList : (xs ys : List Val) → Decidable (xs = ys)
  | [], [] => .isTrue rfl
  | [], _ :: _ => .isFalse (fun h => nomatch h)
  | _ :: _, [] => .isFalse (fun h => nomatch h)
  | x :: xs, y :: ys =>
      match Val.decEq x y, Val.decEqList xs ys with
      | .isTrue h1, .isTrue h2 => .isTrue (by rw [h1, h2])
      | .isFalse h1, _ => .isFalse (fun hh => h1 (by cases hh; rfl))
      | _, .isFalse h2 => .isFalse (fun hh => h2 (by cases hh; rfl))

/-- Decidable equality for association lists of `String × Val`. -/
def Val.decEqDict : (xs ys : List (String × Val)) → Decidable (xs = ys)
  | [], [] => .isTrue rfl
  | [], _ :: _ => .isFalse (fun h => nomatch h)
  | _ :: _, [] => .isFalse (fun h => nomatch h)
  | (k, v) :: xs, (l, w) :: ys =>
      match String.decEq k l, Val.decEq v w, Val.decEqDict xs ys with
      | .isTrue h0, .isTrue h1, .isTrue h2 => .isTrue (by rw [h0, h1, h2])
      | .isFalse h0, _, _ => .isFalse (fun hh => h0 (by cases hh; rfl))
      | _, .isFalse h1, _ => .isFalse (fun hh => h1 (by cases hh; rfl))
      | _, _, .isFalse h2 => .isFalse (fun hh => h2 (by cases hh; rfl))

end

instance : DecidableEq Val := Val.decEq

/-- A parsed JSON object (a Python dict): an association list of fields.
Association lists model dicts with each key occurring at most once. -/
abbrev Pdict := List (String × Val)

/-- Python `d.get(k)` on a dict: the stored value, `None` when the key is
absent. -/
def pyGet (d : Pdict) (k : String) : Val :=
  match d.lookup k with
  | some v => v
  | none => .null

/-- Python `d.get(k, dflt)` on a dict: defaults only when the key is
absent (a stored `None` is returned as-is, like in Python). -/
def pyGetD (d : Pdict) (k : String) (dflt : Val) : Val :=
  match d.lookup k with
  | some v => v
  | none => dflt

/-- Dict lookup `v.get(k, dflt)` where `v` is expected to be a dict (e.g.
the value of the `price` field of a product). On a non-dict the Python code would raise;
well-formedness hypotheses rule that out, and `dflt` is returned as junk. -/
def valGetD (v : Val) (k : String) (dflt : Val) : Val :=
  match v with
  | .vdict kvs => pyGetD kvs k dflt
  | _ => dflt

/-- The list held by a `Val` expected to be a JSON array (junk `[]` on
anything else; ruled out by well-formedness hypotheses). -/
def valAsList (v : Val) : List Val :=
  match v with
  | .vlist xs => xs
  | _ => []

/-- The string held by a `Val` expected to be a JSON string (junk `""` on
anything else; ruled out by well-formedness hypotheses). -/
def valAsStr (v : Val) : String :=
  match v with
  | .str s => s
  | _ => ""

/-- Python string slicing `s[:n]` applied to a `Val`: truncates a string
to its first `n` characters, junk identity on non-strings (ruled out by
well-formedness hypotheses). -/
def pySlice (v : Val) (n : Nat) : Val :=
  match v with
  | .str s => .str (s.take n)
  | v => v

/-- Embeds `ProductRAG.get_product_by_sku`: linear scan of `self.products_json`
for the first product whose `sku` field equals the argument; the empty
dict `{}` (here `[]`) when none matches. The argument is a `Val` because
callers pass `doc.metadata.get("id")`, which can be `None`. -/
def get_product_by_sku (catalog : List Pdict) (sku : Val) : Pdict :=
  match catalog with
  | [] => []
  | product :: rest =>
      if pyGet product "sku" = sku then product
      else get_product_by_sku rest sku

/-- Embeds `a.startswith(b)` on character lists. -/
def listStartsWith : List Char → List Char → Bool
  | _, [] => true
  | [], _ :: _ => false
  | a :: as, b :: bs => a = b && listStartsWith as bs

/-- Python `needle in hay` on character lists: `needle` occurs contiguously
in `hay` (the empty needle occurs everywhere, as in Python). -/
def listHasSub (hay needle : List Char) : Bool :=
  match hay with
  | [] => listStartsWith [] needle
  | _ :: t => listStartsWith hay needle || listHasSub t needle

/-- ASCII lower-casing of one character (`A`–`Z` to `a`–`z`). -/
def pyLowerChar (c : Char) : Char :=
  if 65 ≤ c.toNat && c.toNat ≤ 90 then Char.ofNat (c.toNat + 32) else c

/-- Python `s.lower()`, modelled on the ASCII range (the category data and
queries of this program are ASCII). -/
def pyLower (s : String) : String := ⟨s.data.map pyLowerChar⟩

/-- Embeds `category_name.lower() in cat.get("name","").lower()`: the inner
test of the category loop of `get_products_by_category`. -/
def catMatch (category_name : String) (cat : Val) : Bool :=
  listHasSub (pyLower (valAsStr (valGetD cat "name" (.str "")))).data
    (pyLower category_name).data

/-- The result record built by `get_products_by_category` for a matching
product: `{"name": ..., "brand": ..., "price": ...}` (note: `name` and
`brand` use `.get` with no default, so a missing field yields `None`). -/
def catEntry (product : Pdict) : Pdict :=
  let price_info := pyGetD product "price" (.vdict [])
  [("name", pyGet product "name"),
   ("brand", pyGet product "brandName"),
   ("price", valGetD price_info "amountRelevantDisplay" (.str "N/A"))]

/-- Tool `get_products_by_category(category_name)`: linear scan of
`self.products_json`; a product is appended (once — the Python inner loop
breaks at the first matching category) when any of its category names
contains `category_name` case-insensitively; finally `[:10]`. -/
def get_products_by_category (catalog : List Pdict) (category_name : String) :
    List Pdict :=
  let matching_products := catalog.foldl
    (fun acc product =>
      let categories := valAsList (pyGetD product "categories" (.vlist []))
      if categories.any (fun cat => catMatch category_name cat) then
        acc ++ [catEntry product]
      else acc) []
  matching_products.take 10

/-- The relevance figure of `search_products`: `1 - score` (in Python an
f-string renders it with two decimals; the numeric value is modelled). -/
def relevance (score : ℚ) : ℚ := 1 - score

/-- The result record built by `search_products` for a resolved hit. -/
def searchEntry (product : Pdict) (score : ℚ) : Pdict :=
  let price_info := pyGetD product "price" (.vdict [])
  let price := valGetD price_info "amountRelevantDisplay" (.str "N/A")
  [("name", pyGetD product "name" (.str "Unknown")),
   ("brand", pyGetD product "brandName" (.str "Unknown")),
   ("price", price),
   ("description", pySlice (pyGetD product "description" (.str "")) 200),
   ("relevance_score", .num (relevance score))]

/-- Tool `search_products(query, limit=5)`: asks the vector store for
`k = limit` scored hits, resolves the metadata `id` of each hit (a SKU, possibly
`None`) through `get_product_by_sku`, keeps only truthy (non-empty)
products, and builds one record per kept hit, in hit order. The vector
store is an external collaborator, passed as the function
`store : query → k → list of (metadata id, distance score)`. -/
def search_products (catalog : List Pdict) (store : String → Nat → List (Val × ℚ))
    (query : String) (limit : Nat) : List Pdict :=
  let results := store query limit
  results.foldl
    (fun products_info ds =>
      let sku := ds.1
      let product := get_product_by_sku catalog sku
      if product ≠ [] then products_info ++ [searchEntry product ds.2]
      else products_info) []

/-- Embeds `search_products` with its Python default argument `limit=5`. -/
def search_productsDefault (catalog : List Pdict)
    (store : String → Nat → List (Val × ℚ)) (query : String) : List Pdict :=
  search_products catalog store query 5

/-- The three fixed queries of `find_products_for_athletes`. -/
def athleteQueries : List String :=
  ["high protein lean meat chicken turkey fish",
   "greek yogurt protein",
   "organic healthy vegetables"]

/-- The result record built by `find_products_for_athletes` for a resolved
hit (description truncated to 150 characters). -/
def athleteEntry (product : Pdict) : Pdict :=
  [("name", pyGet product "name"),
   ("brand", pyGet product "brandName"),
   ("price", valGetD (pyGetD product "price" (.vdict [])) "amountRelevantDisplay"
      (.str "N/A")),
   ("description", pySlice (pyGetD product "description" (.str "")) 150)]

/-- Embeds `similarity_search` (no scores): the scored search with the scores
dropped: both tools query the same index. -/
def simSearch (store : String → Nat → List (Val × ℚ)) (query : String) (k : Nat) :
    List Val :=
  (store query k).map Prod.fst

/-- The synthesized query string of `suggest_products_for_recipe`:
`ingredients for ... recipe cooking` around the recipe type. -/
def recipeQuery (recipe_type : String) : String :=
  "ingredients for " ++ recipe_type ++ " recipe cooking"

/-- The result record built by `suggest_products_for_recipe` for a resolved
hit (bare `.get` for `name` and `brand`, defaulted price display). -/
def suggestEntry (product : Pdict) : Pdict :=
  [("name", pyGet product "name"),
   ("brand", pyGet product "brandName"),
   ("price", valGetD (pyGetD product "price" (.vdict [])) "amountRelevantDisplay"
      (.str "N/A"))]

/-- Tool `suggest_products_for_recipe(recipe_type)`: a `k=8` similarity
search on the synthesized query; the SKU of each hit is resolved, truthy
products each contribute one record, in hit order (no cap beyond `k`). -/
def suggest_products_for_recipe (catalog : List Pdict)
    (store : String → Nat → List (Val × ℚ)) (recipe_type : String) : List Pdict :=
  let results := simSearch store (recipeQuery recipe_type) 8
  results.foldl
    (fun suggestions sku =>
      let product := get_product_by_sku catalog sku
      if product ≠ [] then suggestions ++ [suggestEntry product]
      else suggestions) []

/-- Tool `find_products_for_athletes()`: for each of the three fixed
queries, a `k=3` similarity search; the SKU of each hit is resolved and the
Python code appends a formatted record when `product and product not in
all_products` — note that `product` is the RAW catalog dict while
`all_products` holds the FORMATTED records, exactly as in the source.
Finally `[:10]`. -/
def find_products_for_athletes (catalog : List Pdict)
    (store : String → Nat → List (Val × ℚ)) : List Pdict :=
  let all_products := athleteQueries.foldl
    (fun acc query =>
      (simSearch store query 3).foldl
        (fun acc2 sku =>
          if get_product_by_sku catalog sku ≠ []
              ∧ ¬ get_product_by_sku catalog sku ∈ acc2
          then acc2 ++ [athleteEntry (get_product_by_sku catalog sku)]
          else acc2) acc) []
  all_products.take 10

/-- Well-formedness of one product record: the fields this program reads
have the JSON shapes the Python code assumes (where Python would raise a
`TypeError`/`AttributeError` on other shapes, the embedding returns junk;
these hypotheses confine claims to the faithful region). `sku`, `name` and
`brandName` may hold anything — the code only compares or copies them. -/
def wfProduct (product : Pdict) : Bool :=
  (match product.lookup "description" with
   | none => true
   | some (.str _) => true
   | some _ => false) &&
  (match product.lookup "price" with
   | none => true
   | some (.vdict _) => true
   | some _ => false) &&
  (match product.lookup "categories" with
   | none => true
   | some (.vlist cats) =>
       cats.all (fun cat =>
         match cat with
         | .vdict kvs =>
             (match kvs.lookup "name" with
              | none => true
              | some (.str _) => true
              | some _ => false)
         | _ => false)
   | some _ => false)

/-- Well-formedness of a catalog: every product record is well-formed. -/
def wfCatalog (catalog : List Pdict) : Bool := catalog.all wfProduct

/-- Python whitespace as stripped by `str.strip()` with no argument. -/
def isPyWs (c : Char) : Bool :=
  c = ' ' || c = '\t' || c = '\n' || c = '\r' || c = '\x0b' || c = '\x0c'

/-- Embeds `line.rstrip` applied to the two-character set of comma and
newline: removes every trailing character that is a comma or a newline
(tolerating trailing commas of the loosely-formatted feed). -/
def pyRstripCommaNl (s : String) : String :=
  ⟨(s.data.reverse.dropWhile (fun c => c = ',' || c = '\n')).reverse⟩

/-- Embeds `line.strip()`: removes leading and trailing whitespace. -/
def pyStrip (s : String) : String :=
  ⟨((s.data.dropWhile isPyWs).reverse.dropWhile isPyWs).reverse⟩

/-- The per-line cleanup `_load_products` applies before parsing:
the rstrip of comma and newline followed by `.strip()`. -/
def cleanLine (line : String) : String := pyStrip (pyRstripCommaNl line)

/-- Embeds `ProductRAG._load_products`: one pass over the lines of the file; each line
is cleaned and handed to `json.loads` (the external stdlib parser, passed
in as `parse`; `none` models a raised `json.JSONDecodeError`). A parsed
value is appended as-is; a parse failure is printed and skipped, so the
loop always continues. -/
def load_products (parse : String → Option Val) (lines : List String) : List Val :=
  lines.foldl
    (fun products line =>
      match parse (cleanLine line) with
      | some product => products ++ [product]
      | none => products) []

/-- A requested tool call carried by an assistant message: tool name and
arguments. -/
structure ToolCall where
  name : String
  args : List (String × Val)
deriving DecidableEq

/-- A conversation message (LangChain `SystemMessage` / `HumanMessage` /
`AIMessage` with its `tool_calls` / tool-result message). -/
inductive Msg where
  | system (content : String)
  | human (content : String)
  | ai (content : String) (tool_calls : List ToolCall)
  | toolResult (content : String)
deriving DecidableEq

/-- The `content` attribute of a message. -/
def Msg.content : Msg → String
  | .system c => c
  | .human c => c
  | .ai c _ => c
  | .toolResult c => c

/-- The two routes `should_continue` can take: `"tools"` or `"end"`. -/
inductive Route where
  | tools : Route
  | finish : Route
deriving DecidableEq

/-- Embeds `should_continue(state)`: inspects the last message of the state; if
it has no `tool_calls` attribute (non-assistant message) or an empty
`tool_calls` list, route `"end"`, else route `"tools"`. (The agent node
always appends a message first, so the list is never empty at this point;
an empty list routes to `"end"` as a vacuous default.) -/
def should_continue (messages : List Msg) : Route :=
  match messages.getLast? with
  | some (.ai _ tool_calls) => if tool_calls = [] then .finish else .tools
  | _ => .finish

/-- The chat model with tools bound, an external collaborator: from the
accumulated messages it produces the content of the next assistant message and
requested tool calls. -/
abbrev LLM := List Msg → String × List ToolCall

/-- The serialized result of one executed tool call, an external view of the
tool set (the tools themselves are embedded above; the agent-loop theorems
hold for any executor). -/
abbrev ToolExec := ToolCall → String

/-- Modelled from the spec: the `tools` step (the LangGraph `ToolNode`)
"executes every requested tool call, appends one tool-result message per
call to history". -/
def toolMessages (execTool : ToolExec) (tool_calls : List ToolCall) : List Msg :=
  tool_calls.map (fun tc => Msg.toolResult (execTool tc))

/-- Modelled from the spec: the compiled LangGraph agent↔tools loop of
`_create_graph`. The `agent` step appends the model response (the
`messages` channel is `Annotated[List, add]`, so node returns are
appended); `should_continue` then routes to `"end"` (return the
accumulated messages) or `"tools"` (append one result per requested call
and return to `agent`). The spec notes no round-trip bound exists, so the
loop takes explicit fuel and returns `none` when it is exhausted. -/
def runLoop (llm : LLM) (execTool : ToolExec) : Nat → List Msg → Option (List Msg)
  | 0, _ => none
  | Nat.succ fuel, messages =>
      let response := llm messages
      let messages2 := messages ++ [Msg.ai response.1 response.2]
      match should_continue messages2 with
      | .finish => some messages2
      | .tools => runLoop llm execTool fuel (messages2 ++ toolMessages execTool response.2)

/-- The fixed system prompt of `ProductRAG.query` (verbatim, including the
indentation of the source). -/
def systemPrompt : String :=
  "You are a helpful grocery store assistant. \n        You help customers find products, suggest items for recipes, and provide information about grocery items.\n        Use the available tools to search for products and provide detailed, helpful recommendations.\n        Always be friendly and informative."

/-- The `messages` field of `initial_state` in `ProductRAG.query`: the
fixed system prompt plus the new user message. -/
def initialMessages (question : String) : List Msg :=
  [Msg.system systemPrompt, Msg.human question]

/-- The MemorySaver checkpoint store: per thread id, the saved message
history (empty for a thread never used). Modelled from the spec:
"history accumulates in a checkpoint keyed by thread id". -/
abbrev Checkpoints := String → List Msg

/-- Modelled from the spec: the message history the graph run starts from
for a given thread — the checkpointed messages of the thread with the new
input messages appended by the `add` reducer. -/
def consulted (cp : Checkpoints) (thread_id : String) (question : String) :
    List Msg :=
  cp thread_id ++ initialMessages question

/-- Embeds `result["messages"][-1].content`: the text of the last accumulated
message (`""` as junk on an empty history, which cannot occur after a run). -/
def lastContent (messages : List Msg) : String :=
  match messages.getLast? with
  | some m => m.content
  | none => ""

/-- Embeds `ProductRAG.query(question, thread_id)`: builds the initial state,
invokes the compiled graph under the checkpoint of the thread, saves the
accumulated messages back to that same checkpoint, and returns the content
of the last message. `none` models a run longer than the given fuel. -/
def queryRAG (llm : LLM) (execTool : ToolExec) (fuel : Nat) (cp : Checkpoints)
    (question : String) (thread_id : String) : Option (String × Checkpoints) :=
  match runLoop llm execTool fuel (consulted cp thread_id question) with
  | none => none
  | some messages =>
      some (lastContent messages,
        fun t => if t = thread_id then messages else cp t)

/-- Embeds `ProductRAG.query(question)` with the Python default argument
`thread_id="default"`. -/
def queryRAGOmitted (llm : LLM) (execTool : ToolExec) (fuel : Nat)
    (cp : Checkpoints) (question : String) : Option (String × Checkpoints) :=
  queryRAG llm execTool fuel cp question "default"

/-- Whether the metadata id of a hit resolves to a truthy (non-empty) product,
the guard of all retrieval tools. -/
def resolvesHit (catalog : List Pdict) (sku : Val) : Bool :=
  get_product_by_sku catalog sku ≠ []

/-- The example catalog line of the spec: Greek Yogurt in category
"Dairy & Eggs". -/
def exampleYogurt : Pdict :=
  [("sku", .str "A1"), ("name", .str "Greek Yogurt"), ("brandName", .str "BrandX"),
   ("categories", .vlist [.vdict [("name", .str "Dairy & Eggs")]]),
   ("price", .vdict [("amount", .num 399), ("amountRelevantDisplay", .str "$3.99")])]

/-- A one-product catalog exercising the deduplication of the athlete tool. -/
def athleteCatalogBug : List Pdict :=
  [[("sku", .str "A1"), ("name", .str "Chicken Breast"), ("brandName", .str "BrandY"),
    ("price", .vdict [("amountRelevantDisplay", .str "$5.99")]),
    ("description", .str "lean protein")]]

/-- A vector store whose top hit for every query is the product `A1` (a
high-protein product can plausibly top all three athlete queries). -/
def athleteStoreBug : String → Nat → List (Val × ℚ) := fun _ _ => [(.str "A1", 0)]

/-- The formatted athlete-tool record of the product in `athleteCatalogBug`. -/
def chickenEntry : Pdict :=
  [("name", Val.str "Chicken Breast"), ("brand", Val.str "BrandY"),
   ("price", Val.str "$5.99"), ("description", Val.str "lean protein")]

/-- A catalog whose second product is a raw record that coincides with the
formatted athlete entry of the first: keys name, brand, price, description
only. It has no `sku` key, so it resolves for a hit whose metadata carries
no `id` (a `None` SKU, possible for an index loaded from disk). -/
def athCatalogSkip : List Pdict := athleteCatalogBug ++ [chickenEntry]

/-- A vector store returning hit `A1` for the first fixed athlete query
and an id-less hit (`None` SKU) for the other queries. -/
def athStoreSkip : String → Nat → List (Val × ℚ) :=
  fun query _ =>
    if query = "high protein lean meat chicken turkey fish"
    then [(.str "A1", 0)]
    else [(.null, 0)]

/-- A chat model stub that always answers `"hi"` with no tool calls. -/
def llmPlain : LLM := fun _ => ("hi", [])

/-- A tool executor stub. -/
def execNone : ToolExec := fun _ => ""

/-- The empty checkpoint store: no thread has any history yet. -/
def cpEmpty : Checkpoints := fun _ => []

/-- The checkpoint store after one `query` call that omitted the thread
id, under `llmPlain`: the `"default"` thread holds the seeded history plus
the assistant answer. -/
def cpAfterFirst : Checkpoints :=
  fun t =>
    if t = "default"
    then consulted cpEmpty "default" "first question" ++ [Msg.ai "hi" []]
    else cpEmpty t

section Helpers

variable {α β : Type}

/-- An accumulate-if-then-append fold is a filterMap. -/
theorem foldl_ite_append (p : α → Prop) [DecidablePred p] (f : α → β) :
    ∀ (l : List α) (acc : List β),
      l.foldl (fun a x => if p x then a ++ [f x] else a) acc
        = acc ++ l.filterMap (fun x => if p x then some (f x) else none) := by
  intro l
  induction l with
  | nil => intro acc; simp
  | cons x l ih =>
      intro acc
      by_cases h : p x <;> simp [h, ih, List.filterMap_cons]

/-- The accumulate-on-parse-success fold of the loader is a filterMap. -/
theorem load_products_foldl (parse : String → Option Val) :
    ∀ (lines : List String) (acc : List Val),
      lines.foldl
        (fun products line =>
          match parse (cleanLine line) with
          | some product => products ++ [product]
          | none => products) acc
        = acc ++ lines.filterMap (fun line => parse (cleanLine line)) := by
  intro lines
  induction lines with
  | nil => intro acc; simp
  | cons x l ih =>
      intro acc
      cases h : parse (cleanLine x) <;> simp [h, ih, List.filterMap_cons]

/-- The length of a filterMap counts the elements where the function
succeeds. -/
theorem length_filterMap_eq_countP (g : α → Option β) (l : List α) :
    (l.filterMap g).length = l.countP (fun x => (g x).isSome) := by
  induction l with
  | nil => simp
  | cons x l ih =>
      cases h : g x <;> simp [List.filterMap_cons, List.countP_cons, h, ih]

/-- Routing after the agent node appends its response: `"end"` exactly
when the response requests no tool calls. -/
theorem should_continue_concat (l : List Msg) (c : String) (tcs : List ToolCall) :
    should_continue (l ++ [Msg.ai c tcs])
      = if tcs = [] then Route.finish else Route.tools := by
  simp [should_continue]

/-- The last content after appending a message is the content of that message. -/
theorem lastContent_concat (l : List Msg) (m : Msg) :
    lastContent (l ++ [m]) = m.content := by
  simp [lastContent]

/-- A successful agent-loop run only ever appends to the history it was
started with. -/
theorem runLoop_extends (llm : LLM) (e : ToolExec) :
    ∀ (fuel : Nat) (messages out : List Msg),
      runLoop llm e fuel messages = some out → ∃ tail, out = messages ++ tail := by
  intro fuel
  induction fuel with
  | zero => intro messages out h; exact absurd h (by simp [runLoop])
  | succ fuel ih =>
      intro messages out h
      rw [runLoop] at h
      rcases hr : should_continue (messages ++ [Msg.ai (llm messages).1 (llm messages).2]) with _ | _
      · rw [hr] at h
        simp only [Option.some.injEq] at h
        rcases ih _ _ h with ⟨tail, htail⟩
        exact ⟨[Msg.ai (llm messages).1 (llm messages).2]
          ++ toolMessages e (llm messages).2 ++ tail, by simp [htail]⟩
      · rw [hr] at h
        simp only [Option.some.injEq] at h
        exact ⟨[Msg.ai (llm messages).1 (llm messages).2], h.symm⟩

end Helpers

/-- C5: the catalog loader, over any behavior of the external JSON parser,
returns exactly the parses of the lines that parse after per-line cleanup
(trailing commas/newlines stripped, then whitespace), in file order and
verbatim — so one Product per well-formed line with every field (in
particular `sku`) preserved, zero Products per malformed line, and loading
is total: a failed line only skips that line. -/
theorem loader_per_line (parse : String → Option Val) (lines : List String) :
    load_products parse lines = lines.filterMap (fun line => parse (cleanLine line))
      ∧ (load_products parse lines).length
          = lines.countP (fun line => (parse (cleanLine line)).isSome) := by
  have h : load_products parse lines
      = lines.filterMap (fun line => parse (cleanLine line)) := by
    unfold load_products
    have h2 := load_products_foldl parse lines []
    rw [List.nil_append] at h2
    exact h2
  exact ⟨h, by rw [h]; exact length_filterMap_eq_countP _ _⟩

/-- C10: `get_product_by_sku` is the first catalog product whose `sku`
field equals the argument, and the empty record when none matches — in
particular it is total (the Lean embedding is a total function mirroring
the Python loop, which only reads fields) and, when several products share
a SKU, it returns the earliest in catalog order (`find?` semantics). -/
theorem get_product_by_sku_first (catalog : List Pdict) (sku : String) :
    get_product_by_sku catalog (.str sku)
      = (catalog.find? (fun product => pyGet product "sku" = Val.str sku)).getD [] := by
  induction catalog with
  | nil => rfl
  | cons product rest ih =>
      by_cases h : pyGet product "sku" = Val.str sku
      · simp [get_product_by_sku, List.find?, h]
      · simp [get_product_by_sku, List.find?, h, ih]

/-- An accumulate-if-then-append fold over a Bool test is a
filter-and-map (the test and entry builder stay opaque). -/
theorem foldl_ite_append_bool {α β : Type} (q : α → Bool) (g : α → β) :
    ∀ (l : List α) (acc : List β),
      l.foldl (fun acc x => if q x then acc ++ [g x] else acc) acc
        = acc ++ (l.filter q).map g := by
  intro l
  induction l with
  | nil => intro acc; simp
  | cons x l ih =>
      intro acc
      cases h : q x <;> simp [h, ih]

/-- An accumulate-if-then-append fold over a decidable test is a
filterMap (the test and entry builder stay opaque). -/
theorem foldl_ite_append_prop {α β : Type} (p : α → Prop) [DecidablePred p]
    (g : α → β) :
    ∀ (l : List α) (acc : List β),
      l.foldl (fun acc x => if p x then acc ++ [g x] else acc) acc
        = acc ++ l.filterMap (fun x => if p x then some (g x) else none) := by
  intro l
  induction l with
  | nil => intro acc; simp
  | cons x l ih =>
      intro acc
      by_cases h : p x <;> simp [h, ih, List.filterMap_cons]

/-- The accumulate-if-match fold of the category tool is a filter-and-map. -/
theorem category_foldl (category_name : String) (catalog : List Pdict)
    (acc : List Pdict) :
    catalog.foldl
      (fun acc product =>
        let categories := valAsList (pyGetD product "categories" (.vlist []))
        if categories.any (fun cat => catMatch category_name cat) then
          acc ++ [catEntry product]
        else acc) acc
      = acc ++ (catalog.filter (fun product =>
          (valAsList (pyGetD product "categories" (.vlist []))).any
            (fun cat => catMatch category_name cat))).map catEntry :=
  foldl_ite_append_bool
    (fun product =>
      (valAsList (pyGetD product "categories" (.vlist []))).any
        (fun cat => catMatch category_name cat))
    catEntry catalog acc

/-- The accumulate-if-resolved fold of the search tool is a filterMap. -/
theorem search_foldl (catalog : List Pdict) (results : List (Val × ℚ))
    (acc : List Pdict) :
    results.foldl
      (fun products_info ds =>
        let sku := ds.1
        let product := get_product_by_sku catalog sku
        if product ≠ [] then products_info ++ [searchEntry product ds.2]
        else products_info) acc
      = acc ++ results.filterMap (fun ds =>
          if get_product_by_sku catalog ds.1 ≠ []
          then some (searchEntry (get_product_by_sku catalog ds.1) ds.2)
          else none) :=
  foldl_ite_append_prop
    (fun ds => get_product_by_sku catalog ds.1 ≠ [])
    (fun ds => searchEntry (get_product_by_sku catalog ds.1) ds.2)
    results acc

/-- A guarded filterMap is a filter-and-map. -/
theorem filterMap_guard {α β : Type} (p : α → Prop) [DecidablePred p] (f : α → β)
    (l : List α) :
    l.filterMap (fun x => if p x then some (f x) else none)
      = (l.filter (fun x => decide (p x))).map f := by
  induction l with
  | nil => simp
  | cons x l ih => by_cases h : p x <;> simp [h, ih]

/-- C4: `get_products_by_category` returns the first at-most-10 catalog
products (catalog order) having some category name that contains the
argument case-insensitively as a substring, each formatted as
`{name, brand, price}`; and on the example catalog line of the spec the call
with `"dairy"` returns a list containing the Greek Yogurt record. -/
theorem category_filter_spec (catalog : List Pdict) (category_name : String)
    (hwf : wfCatalog catalog = true) :
    get_products_by_category catalog category_name
      = ((catalog.filter (fun product =>
          (valAsList (pyGetD product "categories" (.vlist []))).any
            (fun cat => catMatch category_name cat))).map catEntry).take 10
    ∧ [("name", Val.str "Greek Yogurt"), ("brand", Val.str "BrandX"),
        ("price", Val.str "$3.99")]
        ∈ get_products_by_category [exampleYogurt] "dairy" := by
  constructor
  · unfold get_products_by_category
    have h2 := category_foldl category_name catalog []
    rw [List.nil_append] at h2
    rw [h2]
  · decide

/-- C4 witness: the well-formedness hypothesis holds on the example
catalog, on which the characterization evaluates as expected. -/
theorem category_filter_spec_witness :
    wfCatalog [exampleYogurt] = true ∧
    get_products_by_category [exampleYogurt] "dairy"
      = (([exampleYogurt].filter (fun product =>
          (valAsList (pyGetD product "categories" (.vlist []))).any
            (fun cat => catMatch "dairy" cat))).map catEntry).take 10 := by
  exact ⟨by decide, (category_filter_spec [exampleYogurt] "dairy" (by decide)).1⟩

/-- C7: `search_products` asks the index for `k = limit` scored hits
(`limit` defaults to 5), and returns one record per resolvable hit, in hit
order, holding the product name, brand, price display string, the
description truncated to its first 200 characters, and the relevance
figure `1 - score` — a figure not guaranteed to lie in `[0, 1]`. -/
theorem search_products_spec (catalog : List Pdict)
    (store : String → Nat → List (Val × ℚ)) (query : String) (limit : Nat)
    (hwf : wfCatalog catalog = true) :
    search_products catalog store query limit
      = (store query limit).filterMap (fun ds =>
          if get_product_by_sku catalog ds.1 ≠ []
          then some (searchEntry (get_product_by_sku catalog ds.1) ds.2)
          else none)
    ∧ search_productsDefault catalog store query
        = search_products catalog store query 5
    ∧ ¬ (∀ score : ℚ, 0 ≤ relevance score ∧ relevance score ≤ 1) := by
  refine ⟨?_, rfl, ?_⟩
  · unfold search_products
    have h2 := search_foldl catalog (store query limit) []
    rw [List.nil_append] at h2
    exact h2
  · intro h
    have h2 := (h 2).1
    rw [relevance] at h2
    norm_num at h2

/-- C7 witness: on a concrete well-formed catalog and store, the search
returns the expected single record with relevance `1 - 0 = 1` and the
description capped at 200 characters. -/
theorem search_products_spec_witness :
    wfCatalog [exampleYogurt] = true ∧
    search_products [exampleYogurt] athleteStoreBug "protein" 1
      = (athleteStoreBug "protein" 1).filterMap (fun ds =>
          if get_product_by_sku [exampleYogurt] ds.1 ≠ []
          then some (searchEntry (get_product_by_sku [exampleYogurt] ds.1) ds.2)
          else none) :=
  ⟨by decide, (search_products_spec [exampleYogurt] athleteStoreBug "protein" 1
    (by decide)).1⟩

/-- The inner athlete fold ignores hits failing the resolvability test:
an unresolvable SKU leaves the accumulator untouched. -/
theorem athlete_step_filter (catalog : List Pdict) :
    ∀ (l : List Val) (acc : List Pdict),
      l.foldl
        (fun acc2 sku =>
          if get_product_by_sku catalog sku ≠ []
              ∧ ¬ get_product_by_sku catalog sku ∈ acc2
          then acc2 ++ [athleteEntry (get_product_by_sku catalog sku)]
          else acc2) acc
      = (l.filter (fun sku => resolvesHit catalog sku)).foldl
          (fun acc2 sku =>
            if get_product_by_sku catalog sku ≠ []
                ∧ ¬ get_product_by_sku catalog sku ∈ acc2
            then acc2 ++ [athleteEntry (get_product_by_sku catalog sku)]
            else acc2) acc := by
  intro l
  induction l with
  | nil => intro acc; rfl
  | cons sku l ih =>
      intro acc
      by_cases hp : get_product_by_sku catalog sku = []
      · have hfilter : (sku :: l).filter (fun y => resolvesHit catalog y)
            = l.filter (fun y => resolvesHit catalog y) := by
          simp [List.filter_cons, resolvesHit, hp]
        rw [hfilter]
        simp only [List.foldl_cons]
        rw [if_neg (by simp [hp])]
        exact ih acc
      · have hfilter : (sku :: l).filter (fun y => resolvesHit catalog y)
            = sku :: l.filter (fun y => resolvesHit catalog y) := by
          simp [List.filter_cons, resolvesHit, hp]
        rw [hfilter]
        simp only [List.foldl_cons]
        exact ih _

/-- The inner athlete fold appends at most one record per resolvable hit. -/
theorem athlete_step_length (catalog : List Pdict) :
    ∀ (l : List Val) (acc : List Pdict),
      (l.foldl
        (fun acc2 sku =>
          if get_product_by_sku catalog sku ≠ []
              ∧ ¬ get_product_by_sku catalog sku ∈ acc2
          then acc2 ++ [athleteEntry (get_product_by_sku catalog sku)]
          else acc2) acc).length
      ≤ acc.length + l.countP (fun sku => resolvesHit catalog sku) := by
  intro l
  induction l with
  | nil => intro acc; simp
  | cons sku l ih =>
      intro acc
      simp only [List.foldl_cons, List.countP_cons]
      have h1 : (if get_product_by_sku catalog sku ≠ []
            ∧ ¬ get_product_by_sku catalog sku ∈ acc
          then acc ++ [athleteEntry (get_product_by_sku catalog sku)]
          else acc).length
          ≤ acc.length + (if resolvesHit catalog sku = true then 1 else 0) := by
        by_cases hp : get_product_by_sku catalog sku = []
        · simp [resolvesHit, hp]
        · by_cases hm : get_product_by_sku catalog sku ∈ acc
          · simp [resolvesHit, hp, hm]
          · simp [resolvesHit, hp, hm]
      have h2 := ih (if get_product_by_sku catalog sku ≠ []
            ∧ ¬ get_product_by_sku catalog sku ∈ acc
          then acc ++ [athleteEntry (get_product_by_sku catalog sku)]
          else acc)
      omega

/-- Pre-filtering the scored store to resolvable hits commutes with
dropping the scores. -/
theorem simSearch_filter (catalog : List Pdict)
    (store : String → Nat → List (Val × ℚ)) (query : String) (k : Nat) :
    simSearch (fun qq kk => (store qq kk).filter (fun ds => resolvesHit catalog ds.1))
        query k
      = (simSearch store query k).filter (fun sku => resolvesHit catalog sku) := by
  simp only [simSearch, List.filter_map]
  rfl

/-- The outer fold of the athlete tool is unchanged when the store result
lists are pre-filtered to the resolvable hits. -/
theorem athletes_foldl_filter (catalog : List Pdict)
    (store : String → Nat → List (Val × ℚ)) :
    ∀ (qs : List String) (acc : List Pdict),
      qs.foldl (fun acc query =>
        (simSearch store query 3).foldl
          (fun acc2 sku =>
            if get_product_by_sku catalog sku ≠ []
                ∧ ¬ get_product_by_sku catalog sku ∈ acc2
            then acc2 ++ [athleteEntry (get_product_by_sku catalog sku)]
            else acc2) acc) acc
      = qs.foldl (fun acc query =>
          (simSearch (fun qq kk => (store qq kk).filter (fun ds => resolvesHit catalog ds.1))
              query 3).foldl
            (fun acc2 sku =>
              let product := get_product_by_sku catalog sku
              if product ≠ [] ∧ ¬ product ∈ acc2 then acc2 ++ [athleteEntry product]
              else acc2) acc) acc := by
  intro qs
  induction qs with
  | nil => intro acc; rfl
  | cons q qs ih =>
      intro acc
      simp only [List.foldl_cons]
      rw [simSearch_filter catalog store q 3,
        ← athlete_step_filter catalog (simSearch store q 3) acc]
      exact ih _

/-- The inner athlete fold appends at most one entry per resolvable hit,
so the accumulated length is bounded by the resolvable-hit counts. -/
theorem athletes_foldl_length (catalog : List Pdict)
    (store : String → Nat → List (Val × ℚ)) :
    ∀ (qs : List String) (acc : List Pdict),
      (qs.foldl (fun acc query =>
        (simSearch store query 3).foldl
          (fun acc2 sku =>
            if get_product_by_sku catalog sku ≠ []
                ∧ ¬ get_product_by_sku catalog sku ∈ acc2
            then acc2 ++ [athleteEntry (get_product_by_sku catalog sku)]
            else acc2) acc) acc).length
      ≤ acc.length + (qs.map (fun query =>
          (simSearch store query 3).countP (fun sku => resolvesHit catalog sku))).sum := by
  intro qs
  induction qs with
  | nil => intro acc; simp
  | cons q qs ih =>
      intro acc
      simp only [List.foldl_cons, List.map_cons, List.sum_cons]
      have h1 : ((simSearch store q 3).foldl
          (fun acc2 sku =>
            if get_product_by_sku catalog sku ≠ []
                ∧ ¬ get_product_by_sku catalog sku ∈ acc2
            then acc2 ++ [athleteEntry (get_product_by_sku catalog sku)]
            else acc2) acc).length
          ≤ acc.length + (simSearch store q 3).countP (fun sku => resolvesHit catalog sku) :=
        athlete_step_length catalog (simSearch store q 3) acc
      have h2 := ih ((simSearch store q 3).foldl
          (fun acc2 sku =>
            if get_product_by_sku catalog sku ≠ []
                ∧ ¬ get_product_by_sku catalog sku ∈ acc2
            then acc2 ++ [athleteEntry (get_product_by_sku catalog sku)]
            else acc2) acc)
      omega

set_option maxRecDepth 8192 in
/-- C6 fails on the code: in the retrieval tool `find_products_for_athletes`
a hit whose SKU does resolve can contribute no entry. On this catalog and
store every hit of every query resolves (three resolvable hits in all:
`A1` once and the id-less `None` SKU twice, the latter resolving to the
second catalog record, which carries no `sku` key), yet the tool returns a
single entry: the second and third hits resolve to the raw record that
equals the already-collected formatted entry, so the membership guard
skips them, contradicting the claim that every resolvable hit contributes
exactly one entry in any retrieval tool. -/
theorem athletes_resolvable_hit_skipped :
    resolvesHit athCatalogSkip (Val.str "A1") = true
    ∧ resolvesHit athCatalogSkip Val.null = true
    ∧ athleteQueries.map (fun query => simSearch athStoreSkip query 3)
        = [[Val.str "A1"], [Val.null], [Val.null]]
    ∧ find_products_for_athletes athCatalogSkip athStoreSkip = [chickenEntry] := by
  exact ⟨by decide, by decide, by decide, by decide⟩

/-- C6 (amended): in every retrieval tool, a hit whose SKU does not
resolve to a truthy catalog product is silently omitted — pre-filtering
the hits of the vector store to the resolvable ones changes no result of
`search_products`, `suggest_products_for_recipe` or
`find_products_for_athletes`, and no error is raised or surfaced (the
value is the same total list either way). In `search_products` and
`suggest_products_for_recipe` every resolvable hit contributes exactly one
entry (the output length equals the number of resolvable hits); in
`find_products_for_athletes` a resolvable hit contributes at most one
entry — its membership guard can also skip it (see the counterexample), so
only the upper bound holds there. -/
theorem retrieval_tools_drop_unresolvable (catalog : List Pdict)
    (store : String → Nat → List (Val × ℚ)) (query recipe_type : String)
    (limit : Nat) (hwf : wfCatalog catalog = true) :
    (search_products catalog store query limit
        = search_products catalog
            (fun q k => (store q k).filter (fun ds => resolvesHit catalog ds.1))
            query limit
      ∧ (search_products catalog store query limit).length
          = ((store query limit).filter (fun ds => resolvesHit catalog ds.1)).length)
    ∧ (suggest_products_for_recipe catalog store recipe_type
        = suggest_products_for_recipe catalog
            (fun q k => (store q k).filter (fun ds => resolvesHit catalog ds.1))
            recipe_type
      ∧ (suggest_products_for_recipe catalog store recipe_type).length
          = ((simSearch store (recipeQuery recipe_type) 8).filter
              (fun sku => resolvesHit catalog sku)).length)
    ∧ (find_products_for_athletes catalog store
        = find_products_for_athletes catalog
            (fun q k => (store q k).filter (fun ds => resolvesHit catalog ds.1))
      ∧ (find_products_for_athletes catalog store).length
          ≤ (athleteQueries.map (fun q =>
              (simSearch store q 3).countP (fun sku => resolvesHit catalog sku))).sum) := by
  have hchar : ∀ (st : String → Nat → List (Val × ℚ)),
      search_products catalog st query limit
        = (st query limit).filterMap (fun ds =>
            if get_product_by_sku catalog ds.1 ≠ []
            then some (searchEntry (get_product_by_sku catalog ds.1) ds.2)
            else none) := by
    intro st
    unfold search_products
    have h2 := search_foldl catalog (st query limit) []
    rw [List.nil_append] at h2
    exact h2
  have hguard : ∀ (l : List (Val × ℚ)),
      l.filterMap (fun ds =>
          if get_product_by_sku catalog ds.1 ≠ []
          then some (searchEntry (get_product_by_sku catalog ds.1) ds.2)
          else none)
        = ((l.filter (fun ds => resolvesHit catalog ds.1)).map
            (fun ds => searchEntry (get_product_by_sku catalog ds.1) ds.2)) :=
    fun l => filterMap_guard (fun ds => get_product_by_sku catalog ds.1 ≠ [])
      (fun ds => searchEntry (get_product_by_sku catalog ds.1) ds.2) l
  have schar : ∀ (st : String → Nat → List (Val × ℚ)),
      suggest_products_for_recipe catalog st recipe_type
        = (simSearch st (recipeQuery recipe_type) 8).filterMap (fun sku =>
            if get_product_by_sku catalog sku ≠ []
            then some (suggestEntry (get_product_by_sku catalog sku))
            else none) := by
    intro st
    unfold suggest_products_for_recipe
    have h2 := foldl_ite_append_prop (fun sku => get_product_by_sku catalog sku ≠ [])
      (fun sku => suggestEntry (get_product_by_sku catalog sku))
      (simSearch st (recipeQuery recipe_type) 8) []
    rw [List.nil_append] at h2
    exact h2
  have sguard : ∀ (l : List Val),
      l.filterMap (fun sku =>
          if get_product_by_sku catalog sku ≠ []
          then some (suggestEntry (get_product_by_sku catalog sku))
          else none)
        = ((l.filter (fun sku => resolvesHit catalog sku)).map
            (fun sku => suggestEntry (get_product_by_sku catalog sku))) :=
    fun l => filterMap_guard (fun sku => get_product_by_sku catalog sku ≠ [])
      (fun sku => suggestEntry (get_product_by_sku catalog sku)) l
  refine ⟨⟨?_, ?_⟩, ⟨?_, ?_⟩, ?_, ?_⟩
  · rw [hchar store,
      hchar (fun q k => (store q k).filter (fun ds => resolvesHit catalog ds.1))]
    rw [hguard, hguard]
    simp [List.filter_filter]
  · rw [hchar store, hguard]
    simp
  · rw [schar store,
      schar (fun q k => (store q k).filter (fun ds => resolvesHit catalog ds.1))]
    rw [simSearch_filter catalog store (recipeQuery recipe_type) 8]
    rw [sguard, sguard]
    simp [List.filter_filter]
  · rw [schar store, sguard]
    simp
  · unfold find_products_for_athletes
    exact congrArg (List.take 10) (athletes_foldl_filter catalog store athleteQueries [])
  · have hfold := athletes_foldl_length catalog store athleteQueries []
    have hlen : (find_products_for_athletes catalog store).length
        ≤ (athleteQueries.foldl (fun acc query =>
            (simSearch store query 3).foldl
              (fun acc2 sku =>
                let product := get_product_by_sku catalog sku
                if product ≠ [] ∧ ¬ product ∈ acc2 then acc2 ++ [athleteEntry product]
                else acc2) acc) []).length := by
      have heq : find_products_for_athletes catalog store
          = (athleteQueries.foldl (fun acc query =>
              (simSearch store query 3).foldl
                (fun acc2 sku =>
                  let product := get_product_by_sku catalog sku
                  if product ≠ [] ∧ ¬ product ∈ acc2 then acc2 ++ [athleteEntry product]
                  else acc2) acc) []).take 10 := rfl
      rw [heq, List.length_take]
      exact Nat.min_le_right _ _
    exact le_trans hlen (by simpa using hfold)

/-- C6 witness: on a concrete well-formed catalog and a store returning
one resolvable and one unresolvable hit, the amended theorem applies; the
unresolvable hit is dropped by every tool and the two simple tools return
exactly one entry. -/
theorem retrieval_tools_drop_unresolvable_witness :
    wfCatalog [exampleYogurt] = true
    ∧ (search_products [exampleYogurt]
        (fun _ _ => [(Val.str "A1", 0), (Val.str "NO-SUCH-SKU", 0)]) "q" 2).length = 1
    ∧ (suggest_products_for_recipe [exampleYogurt]
        (fun _ _ => [(Val.str "A1", 0), (Val.str "NO-SUCH-SKU", 0)]) "pasta").length = 1
    ∧ (find_products_for_athletes [exampleYogurt]
        (fun _ _ => [(Val.str "A1", 0), (Val.str "NO-SUCH-SKU", 0)])).length
        ≤ (athleteQueries.map (fun q =>
            (simSearch ((fun _ _ => [(Val.str "A1", 0), (Val.str "NO-SUCH-SKU", 0)]) :
                String → Nat → List (Val × ℚ)) q 3).countP
              (fun sku => resolvesHit [exampleYogurt] sku))).sum := by
  have h := retrieval_tools_drop_unresolvable [exampleYogurt]
    (fun _ _ => [(Val.str "A1", 0), (Val.str "NO-SUCH-SKU", 0)]) "q" "pasta" 2 (by decide)
  exact ⟨by decide, h.1.2.trans (by decide), h.2.1.2.trans (by decide), h.2.2.2⟩

set_option maxRecDepth 8192 in
/-- C1 fails on the code: when the same product tops two of the three
fixed queries, `find_products_for_athletes` emits it repeatedly. The
Python membership test compares the raw catalog dict `product` against
`all_products`, a list of formatted `{name, brand, price, description}`
records, so it never fires on real data and duplicates are not removed:
on this catalog and store the tool returns three identical entries, hence
duplicate product names. (The other conjuncts of the claim — at most 10
entries, query order, 150-character truncation — do hold.) -/
theorem athletes_duplicates_bug :
    find_products_for_athletes athleteCatalogBug athleteStoreBug
      = [chickenEntry, chickenEntry, chickenEntry]
    ∧ ¬ ((find_products_for_athletes athleteCatalogBug athleteStoreBug).map
          (fun p => pyGet p "name")).Nodup := by
  exact ⟨by decide, by decide⟩

/-- C2 fails on the code: an omitted thread id is the fixed id
`"default"`, whose checkpoint persists, so the second of two successive
omitted-id calls starts from the accumulated history of the first call rather
than from the fixed system prompt plus the new user message alone. -/
theorem query_default_thread_shares_history :
    queryRAGOmitted llmPlain execNone 1 cpEmpty "first question"
      = some ("hi", cpAfterFirst)
    ∧ consulted cpAfterFirst "default" "second question"
        ≠ initialMessages "second question" := by
  refine ⟨rfl, fun h => ?_⟩
  have h2 := congrArg List.length h
  simp [consulted, initialMessages, cpAfterFirst, cpEmpty] at h2

/-- C2 (amended): a call whose thread id has no saved checkpoint starts
from a history seeded only with the fixed system prompt plus the new user
message; an omitted thread id is the fixed id `"default"` (the Python
default argument), so successive omitted-id calls share the history of that
one thread. -/
theorem query_fresh_thread_seeding (llm : LLM) (execTool : ToolExec) (fuel : Nat)
    (cp : Checkpoints) (question tid : String) (hfresh : cp tid = []) :
    consulted cp tid question = initialMessages question
    ∧ queryRAGOmitted llm execTool fuel cp question
        = queryRAG llm execTool fuel cp question "default" :=
  ⟨by simp [consulted, hfresh], rfl⟩

/-- C2 witness: a never-used thread id on the empty store. -/
theorem query_fresh_thread_seeding_witness :
    cpEmpty "t9" = []
    ∧ (consulted cpEmpty "t9" "hello" = initialMessages "hello"
      ∧ queryRAGOmitted llmPlain execNone 1 cpEmpty "hello"
          = queryRAG llmPlain execNone 1 cpEmpty "hello" "default") :=
  ⟨rfl, query_fresh_thread_seeding llmPlain execNone 1 cpEmpty "hello" "t9" rfl⟩

/-- C3: one step of the agent loop. The agent step appends the model
response; when it requests no tool calls the loop ends with exactly that
history — by the second conjunct the final answer is the response text
unchanged, and the end branch never consults the tool executor `e` —
otherwise the tools step appends one result per requested call (third
conjunct: exactly as many results as calls, in call order) and control
returns unconditionally to the agent step. -/
theorem agent_loop_step (llm : LLM) (e : ToolExec) (fuel : Nat)
    (messages : List Msg) :
    (runLoop llm e (fuel + 1) messages
      = if (llm messages).2 = []
        then some (messages ++ [Msg.ai (llm messages).1 (llm messages).2])
        else runLoop llm e fuel
          (messages ++ [Msg.ai (llm messages).1 (llm messages).2]
            ++ toolMessages e (llm messages).2))
    ∧ lastContent (messages ++ [Msg.ai (llm messages).1 (llm messages).2])
        = (llm messages).1
    ∧ (toolMessages e (llm messages).2).length = (llm messages).2.length := by
  refine ⟨?_, lastContent_concat _ _, by simp [toolMessages]⟩
  simp only [runLoop, should_continue_concat]
  by_cases h : (llm messages).2 = []
  · simp [h]
  · simp [h]

/-- C8: thread noninterference. A `query` under thread `A` leaves the
checkpoint of thread `B` exactly as it was, and the answer and resulting
`B`-history of a `query` under `B` depend only on the checkpoint of `B` —
two stores agreeing on `B` (but arbitrary on `A` and elsewhere) yield
identical observable outcomes for `B`. -/
theorem thread_noninterference (llm : LLM) (e : ToolExec) (fuel : Nat)
    (cpA cpB : Checkpoints) (A B qA qB : String) (hAB : A ≠ B)
    (hcp : cpA B = cpB B) :
    (queryRAG llm e fuel cpA qA A).map (fun r => r.2 B)
      = (queryRAG llm e fuel cpA qA A).map (fun _ => cpA B)
    ∧ (queryRAG llm e fuel cpA qB B).map (fun r => (r.1, r.2 B))
      = (queryRAG llm e fuel cpB qB B).map (fun r => (r.1, r.2 B)) := by
  constructor
  · unfold queryRAG
    cases hr : runLoop llm e fuel (consulted cpA A qA) with
    | none => simp
    | some messages => simp [Ne.symm hAB]
  · have hcons : consulted cpA B qB = consulted cpB B qB := by
      simp [consulted, hcp]
    unfold queryRAG
    rw [hcons]
    cases hr : runLoop llm e fuel (consulted cpB B qB) with
    | none => simp
    | some messages => simp

/-- C8 witness: concrete distinct threads on the empty store. -/
theorem thread_noninterference_witness :
    ("a" : String) ≠ "b"
    ∧ ((queryRAG llmPlain execNone 1 cpEmpty "qa" "a").map (fun r => r.2 "b")
        = (queryRAG llmPlain execNone 1 cpEmpty "qa" "a").map (fun _ => cpEmpty "b")
      ∧ (queryRAG llmPlain execNone 1 cpEmpty "qb" "b").map (fun r => (r.1, r.2 "b"))
        = (queryRAG llmPlain execNone 1 cpEmpty "qb" "b").map (fun r => (r.1, r.2 "b"))) :=
  ⟨by decide, thread_noninterference llmPlain execNone 1 cpEmpty cpEmpty
    "a" "b" "qa" "qb" (by decide) rfl⟩

/-- C9: history grows monotonically. A successful agent-loop run (each
agent step and each tools step only concatenates) returns the start
history with a tail appended — nothing is removed, reordered or modified —
and a successful `query` call extends the checkpoint of its thread by
appending, leaving the checkpoint of every other thread untouched. -/
theorem history_monotone (llm : LLM) (e : ToolExec) (fuel : Nat)
    (messages out : List Msg) (cp : Checkpoints) (question tid t ans : String)
    (cp' : Checkpoints) :
    (runLoop llm e fuel messages = some out → ∃ tail, out = messages ++ tail)
    ∧ (queryRAG llm e fuel cp question tid = some (ans, cp') →
        (∃ tail, cp' tid = cp tid ++ tail) ∧ (t ≠ tid → cp' t = cp t)) := by
  constructor
  · exact runLoop_extends llm e fuel messages out
  · intro h
    unfold queryRAG at h
    cases hr : runLoop llm e fuel (consulted cp tid question) with
    | none => rw [hr] at h; exact absurd h (by simp)
    | some messages2 =>
        rw [hr] at h
        simp only [Option.some.injEq, Prod.mk.injEq] at h
        obtain ⟨hans, hcp'⟩ := h
        constructor
        · rcases runLoop_extends llm e fuel _ _ hr with ⟨tail, htail⟩
          refine ⟨initialMessages question ++ tail, ?_⟩
          rw [← hcp']
          simp [htail, consulted]
        · intro ht
          rw [← hcp']
          simp [ht]

/-- C9 witness: one concrete loop run and one concrete `query` call, both
shown to extend the prior state by appending. -/
theorem history_monotone_witness :
    (∃ tail, [Msg.ai "hi" []] = ([] : List Msg) ++ tail)
    ∧ (∃ tail, cpAfterFirst "default" = cpEmpty "default" ++ tail)
    ∧ cpAfterFirst "x" = cpEmpty "x" := by
  have h := history_monotone llmPlain execNone 1 [] [Msg.ai "hi" []] cpEmpty
    "first question" "default" "x" "hi" cpAfterFirst
  exact ⟨h.1 rfl, (h.2 rfl).1, (h.2 rfl).2 (by decide)⟩

